import Mathlib

/-!
Shallow embedding of the compact-bar plugin (src/main.rs, src/tab.rs):
the tab-line click resolver, the tab styler, the session-switch
resolution step and the per-session layout cache, together with
theorems checking the specification's claims about them.

External host types (`TabInfo`, `SessionInfo`, `ClientInfo`, `PaneInfo`)
are embedded with exactly the fields the plugin reads.  Machine integers
(`u32`, `usize`) are modelled as `Nat`: none of the embedded arithmetic
can overflow in the claims' ranges (indices and widths of on-screen
segments).
-/

namespace CompactBar

/-- Embeds `LinePart` from src/main.rs: one rendered chunk of the strip.
`part` is the styled text (styling escapes abstracted away, glyphs kept),
`len` its display width in columns, `tab_index` the 0-based position of
the tab it represents, when any. -/
structure LinePart where
  part : String
  len : Nat
  tab_index : Option Nat
  deriving Repr, DecidableEq

/-- Embeds the scanning loop of `get_clicked_line_part` (src/tab.rs):
`acc` is the mutable `len` accumulator, starting at 0. -/
def getClickedAux : List LinePart → Nat → Nat → Option LinePart
  | [], _, _ => none
  | tab_line_part :: rest, acc, mouse_click_col =>
    if acc ≤ mouse_click_col ∧ mouse_click_col < acc + tab_line_part.len then
      some tab_line_part
    else
      getClickedAux rest (acc + tab_line_part.len) mouse_click_col

/-- Embeds `get_clicked_line_part` (src/tab.rs lines 96-108). -/
def get_clicked_line_part (tab_line : List LinePart) (mouse_click_col : Nat) :
    Option LinePart :=
  getClickedAux tab_line 0 mouse_click_col

/-- Embeds `get_tab_to_focus` (src/tab.rs lines 81-94). -/
def get_tab_to_focus (tab_line : List LinePart) (active_tab_idx : Nat)
    (mouse_click_col : Nat) : Option Nat :=
  match get_clicked_line_part tab_line mouse_click_col with
  | none => none
  | some clicked_line_part =>
    match clicked_line_part.tab_index with
    | none => none
    | some clicked_tab_idx =>
      if clicked_tab_idx + 1 ≠ active_tab_idx then some (clicked_tab_idx + 1)
      else none

/-- Start column of segment `i` in the strip: the sum of the widths of the
segments before it. -/
def segStart (tab_line : List LinePart) (i : Nat) : Nat :=
  ((tab_line.take i).map (fun p => p.len)).sum

/-- Segment `i` exists and its half-open column interval
`[acc + start, acc + start + len)` contains `col`. -/
def hitsFrom (acc : Nat) (tab_line : List LinePart) (col i : Nat) : Prop :=
  ∃ p, tab_line[i]? = some p ∧
    acc + segStart tab_line i ≤ col ∧ col < acc + segStart tab_line i + p.len

theorem hitsFrom_zero (acc : Nat) (hd : LinePart) (tl : List LinePart) (col : Nat) :
    hitsFrom acc (hd :: tl) col 0 ↔ acc ≤ col ∧ col < acc + hd.len := by
  simp [hitsFrom, segStart]

theorem hitsFrom_succ (acc : Nat) (hd : LinePart) (tl : List LinePart) (col j : Nat) :
    hitsFrom acc (hd :: tl) col (j + 1) ↔ hitsFrom (acc + hd.len) tl col j := by
  simp only [hitsFrom, segStart, List.take_succ_cons, List.map_cons, List.sum_cons,
    List.getElem?_cons_succ]
  constructor
  · rintro ⟨p, hp, h1, h2⟩
    exact ⟨p, hp, by omega, by omega⟩
  · rintro ⟨p, hp, h1, h2⟩
    exact ⟨p, hp, by omega, by omega⟩

instance hitsFrom_decidable (acc : Nat) (tab_line : List LinePart) (col i : Nat) :
    Decidable (hitsFrom acc tab_line col i) := by
  unfold hitsFrom
  infer_instance

theorem getClickedAux_eq_some (tab_line : List LinePart) (acc col : Nat) (p : LinePart) :
    getClickedAux tab_line acc col = some p ↔
      ∃ i, tab_line[i]? = some p ∧ hitsFrom acc tab_line col i ∧
        ∀ j < i, ¬ hitsFrom acc tab_line col j := by
  induction tab_line generalizing acc with
  | nil => simp [getClickedAux, hitsFrom]
  | cons hd tl ih =>
    have hdef : getClickedAux (hd :: tl) acc col =
        if acc ≤ col ∧ col < acc + hd.len then some hd
        else getClickedAux tl (acc + hd.len) col := rfl
    by_cases h : acc ≤ col ∧ col < acc + hd.len
    · rw [hdef, if_pos h]
      constructor
      · intro hsp
        obtain rfl : hd = p := by injection hsp
        exact ⟨0, by simp, (hitsFrom_zero acc hd tl col).mpr h, by omega⟩
      · rintro ⟨i, hi, _, hleast⟩
        cases i with
        | zero => simp only [List.getElem?_cons_zero] at hi; simp [hi]
        | succ n =>
          exact absurd ((hitsFrom_zero acc hd tl col).mpr h) (hleast 0 (Nat.succ_pos n))
    · rw [hdef, if_neg h]
      rw [ih (acc + hd.len)]
      constructor
      · rintro ⟨i, hi, hhit, hleast⟩
        refine ⟨i + 1, by simpa using hi, (hitsFrom_succ acc hd tl col i).mpr hhit, ?_⟩
        intro j hj
        cases j with
        | zero => rw [hitsFrom_zero]; exact h
        | succ m =>
          rw [hitsFrom_succ]
          exact hleast m (by omega)
      · rintro ⟨i, hi, hhit, hleast⟩
        cases i with
        | zero =>
          exact absurd ((hitsFrom_zero acc hd tl col).mp (by simpa using hhit)) h
        | succ n =>
          refine ⟨n, by simpa using hi, (hitsFrom_succ acc hd tl col n).mp hhit, ?_⟩
          intro j hj
          have := hleast (j + 1) (by omega)
          rwa [hitsFrom_succ] at this

theorem getClickedAux_eq_none (tab_line : List LinePart) (acc col : Nat) :
    getClickedAux tab_line acc col = none ↔ ∀ i, ¬ hitsFrom acc tab_line col i := by
  induction tab_line generalizing acc with
  | nil => simp [getClickedAux, hitsFrom]
  | cons hd tl ih =>
    have hdef : getClickedAux (hd :: tl) acc col =
        if acc ≤ col ∧ col < acc + hd.len then some hd
        else getClickedAux tl (acc + hd.len) col := rfl
    by_cases h : acc ≤ col ∧ col < acc + hd.len
    · rw [hdef, if_pos h]
      constructor
      · intro hc; cases hc
      · intro hall
        exact absurd ((hitsFrom_zero acc hd tl col).mpr h) (hall 0)
    · rw [hdef, if_neg h]
      rw [ih (acc + hd.len)]
      constructor
      · intro hall i
        cases i with
        | zero => rw [hitsFrom_zero]; exact h
        | succ n => rw [hitsFrom_succ]; exact hall n
      · intro hall i
        have := hall (i + 1)
        rwa [hitsFrom_succ] at this

/-- Claim C1: click resolution scans the rendered strip left to right
accumulating widths; the first segment whose interval `[start, start+len)`
contains the column is the hit, the result is that segment's owner tab
index converted to 1-based, and there is no selection exactly when no
segment's interval contains the column, the hit segment has no owner tab,
or the resolved 1-based ordinal equals the active tab ordinal. -/
theorem claim_C1 (tab_line : List LinePart) (active_tab_idx col : Nat) :
    (∀ p, get_clicked_line_part tab_line col = some p ↔
        ∃ i, tab_line[i]? = some p ∧ hitsFrom 0 tab_line col i ∧
          ∀ j < i, ¬ hitsFrom 0 tab_line col j)
    ∧ (∀ r, get_tab_to_focus tab_line active_tab_idx col = some r ↔
        ∃ p t, get_clicked_line_part tab_line col = some p ∧
          p.tab_index = some t ∧ r = t + 1 ∧ r ≠ active_tab_idx)
    ∧ (get_tab_to_focus tab_line active_tab_idx col = none ↔
        (∀ i, ¬ hitsFrom 0 tab_line col i)
        ∨ (∃ p, get_clicked_line_part tab_line col = some p ∧ p.tab_index = none)
        ∨ (∃ p t, get_clicked_line_part tab_line col = some p ∧
            p.tab_index = some t ∧ t + 1 = active_tab_idx)) := by
  refine ⟨fun p => getClickedAux_eq_some tab_line 0 col p, ?_, ?_⟩
  · intro r
    cases hc : get_clicked_line_part tab_line col with
    | none => simp [get_tab_to_focus, hc]
    | some q =>
      cases ht : q.tab_index with
      | none => simp [get_tab_to_focus, hc, ht]
      | some t =>
        by_cases he : t + 1 = active_tab_idx
        · simp only [get_tab_to_focus, hc, ht, ne_eq, he, not_true_eq_false,
            if_false]
          constructor
          · intro hcon; cases hcon
          · rintro ⟨p, t', hp, hpt, hrt, hra⟩
            injection hp with hp
            subst hp
            rw [ht] at hpt
            injection hpt with hpt
            exact absurd (show r = active_tab_idx by omega) hra
        · simp only [get_tab_to_focus, hc, ht, ne_eq, he, not_false_eq_true,
            if_true]
          constructor
          · intro hsr
            injection hsr with hsr
            exact ⟨q, t, rfl, ht, hsr.symm, by omega⟩
          · rintro ⟨p, t', hp, hpt, hrt, hra⟩
            injection hp with hp
            subst hp
            rw [ht] at hpt
            injection hpt with hpt
            exact congrArg some (by omega)
  · cases hc : get_clicked_line_part tab_line col with
    | none =>
      simp only [get_tab_to_focus, hc]
      constructor
      · intro _
        exact Or.inl fun i => (getClickedAux_eq_none tab_line 0 col).mp hc i
      · intro _; trivial
    | some q =>
      have hne : ¬ (∀ i, ¬ hitsFrom 0 tab_line col i) := by
        intro hall
        have hnone := (getClickedAux_eq_none tab_line 0 col).mpr hall
        rw [get_clicked_line_part] at hc
        rw [hnone] at hc
        cases hc
      cases ht : q.tab_index with
      | none =>
        simp only [get_tab_to_focus, hc, ht]
        constructor
        · intro _
          exact Or.inr (Or.inl ⟨q, rfl, ht⟩)
        · intro _; trivial
      | some t =>
        by_cases he : t + 1 = active_tab_idx
        · simp only [get_tab_to_focus, hc, ht, ne_eq, he, not_true_eq_false,
            if_false]
          constructor
          · intro _
            exact Or.inr (Or.inr ⟨q, t, rfl, ht, he⟩)
          · intro _; trivial
        · simp only [get_tab_to_focus, hc, ht, ne_eq, he, not_false_eq_true,
            if_true]
          constructor
          · intro hcon; cases hcon
          · rintro (hall | ⟨p, hp, hpt⟩ | ⟨p, t', hp, hpt, hte⟩)
            · exact absurd hall hne
            · injection hp with hp
              subst hp
              rw [ht] at hpt
              cases hpt
            · injection hp with hp
              subst hp
              rw [ht] at hpt
              injection hpt with hpt
              exact absurd (show t + 1 = active_tab_idx by omega) he

/-! ## Host data model

The zellij host types, embedded with the fields the plugin reads. -/

/-- Host `TabInfo`: the fields read by src/main.rs and src/tab.rs.
Client ids are numeric. -/
structure TabInfo where
  position : Nat
  name : String
  active : Bool
  is_sync_panes_active : Bool
  other_focused_clients : List Nat
  deriving Repr, DecidableEq

/-- Host `SessionInfo`: the fields read by the `SessionUpdate` handler. -/
structure SessionInfo where
  name : String
  is_current_session : Bool
  deriving Repr, DecidableEq

/-- Host `ClientInfo`: the fields read by `try_switch_session`. -/
structure ClientInfo where
  client_pid : Nat
  is_current_client : Bool
  deriving Repr, DecidableEq

/-- Host `PaneInfo`: the fields read through `get_focused_pane` and
`dump_layout_to_cache`. -/
structure PaneInfo where
  id : Nat
  is_plugin : Bool
  is_focused : Bool
  deriving Repr, DecidableEq

/-- Host `PaneManifest`: panes grouped by tab position
(`BTreeMap<usize, Vec<PaneInfo>>`), as an association list. -/
abbrev PaneManifest : Type := List (Nat × List PaneInfo)

/-- Embeds `ClientLayout` (src/main.rs lines 24-28). -/
structure ClientLayout where
  tab_idx : Nat
  pane : Nat × Bool
  deriving Repr, DecidableEq

/-- Key lookup in an association list, the map semantics of the embedded
`BTreeMap`s. -/
def lookupA {α β : Type} [DecidableEq α] : List (α × β) → α → Option β
  | [], _ => none
  | (k, v) :: rest, key => if key = k then some v else lookupA rest key

/-- Key insert-or-overwrite in an association list, the map semantics of
`BTreeMap::insert`. -/
def insertA {α β : Type} [DecidableEq α] : List (α × β) → α → β → List (α × β)
  | [], key, val => [(key, val)]
  | (k, v) :: rest, key, val =>
    if key = k then (key, val) :: rest else (k, v) :: insertA rest key val

/-- Per-session cache mapping: client pid to its last-focused layout
(`BTreeMap<u32, ClientLayout>`). -/
abbrev SessionMap : Type := List (Nat × ClientLayout)

/-- Content of one cache file: `none` models content that fails to parse
as the expected mapping, `some m` content that parses to `m`.  JSON
(de)serialization itself is an excluded external collaborator and is
assumed faithful. -/
abbrev FileContent : Type := Option SessionMap

/-- The /tmp file store keyed by session name: absent key models a file
that cannot be opened. -/
abbrev FS : Type := List (String × FileContent)

/-- Embeds the plugin `State` (src/main.rs lines 30-42).  The rendered
`tab_line` is produced by `render`, which the claims do not exercise; it
is kept as plain state. -/
structure State where
  tabs : List TabInfo
  panes : PaneManifest
  active_tab_idx : Nat
  tab_line : List LinePart
  next_session : Option String
  clients : List ClientInfo
  switch_session_event_source_pid : Option Nat
  current_session : String
  pid : Nat
  deriving Repr, DecidableEq

/-- Rust `Default` for `State`: every field empty / zero / `None`. -/
def State.default : State :=
  { tabs := [], panes := ([] : List (Nat × List PaneInfo)), active_tab_idx := 0,
    tab_line := [], next_session := none, clients := [],
    switch_session_event_source_pid := none, current_session := "", pid := 0 }

/-- Outbound host requests the embedded handlers can issue. -/
inductive Request where
  | switch_tab_to (tab_idx : Nat)
  | list_clients
  | switch_session (name : Option String)
  | switch_session_with_focus (name : String) (tab_idx : Nat) (pane : Nat × Bool)
  deriving Repr, DecidableEq

instance : DecidableEq (State × FS) := instDecidableEqProd

instance : DecidableEq ((State × FS) × List Request) := instDecidableEqProd

/-! ## Layout cache (src/main.rs lines 252-295) -/

/-- Embeds `get_session_layout_info` (src/main.rs lines 284-295): open the
per-session file; a file that cannot be opened or whose content fails to
parse yields the empty mapping. -/
def get_session_layout_info (fs : FS) (session_name : String) : SessionMap :=
  match lookupA fs session_name with
  | none => ([] : SessionMap)
  | some none => ([] : SessionMap)
  | some (some val) => val

/-- Host helper `get_focused_tab` from the external zellij-tile library
(an excluded collaborator): the tab flagged active, per the spec's
interface description. -/
def get_focused_tab (tabs : List TabInfo) : Option TabInfo :=
  tabs.find? (fun t => t.active)

/-- Host helper `get_focused_pane` from the external zellij-tile library
(an excluded collaborator): the focused pane among the panes of the given
tab position, per the spec's interface description. -/
def get_focused_pane (tab_position : Nat) (panes : PaneManifest) :
    Option PaneInfo :=
  match lookupA panes tab_position with
  | none => none
  | some ps => ps.find? (fun p => p.is_focused)

/-- Embeds `dump_layout_to_cache` (src/main.rs lines 252-282), returning
the updated file store.  The `expect`/`unwrap` on the file write cannot
fail in the store model. -/
def dump_layout_to_cache (s : State) (fs : FS) : FS :=
  match get_focused_tab s.tabs with
  | none => fs
  | some focused_tab =>
    match get_focused_pane focused_tab.position s.panes with
    | none => fs
    | some focused_pane =>
      let layout : ClientLayout :=
        { tab_idx := focused_tab.position,
          pane := (focused_pane.id, focused_pane.is_plugin) }
      let layout_info := get_session_layout_info fs s.current_session
      insertA fs s.current_session
        (some (insertA layout_info s.pid layout))

/-! ## Session switching (src/main.rs lines 207-250) -/

/-- The body of `try_switch_session` past the guards (src/main.rs lines
224-247), with `s1.pid` already set from the client list: decides whether
a switch request is issued and which store results. -/
def resolve_switch (s1 : State) (fs : FS) : FS × List Request :=
  match s1.switch_session_event_source_pid with
  | some source_pid =>
    if s1.pid = source_pid then
      match s1.next_session with
      | some next_session =>
        let fs2 := dump_layout_to_cache s1 fs
        match lookupA (get_session_layout_info fs2 next_session) s1.pid with
        | some layout =>
          (fs2, [Request.switch_session_with_focus next_session
            layout.tab_idx layout.pane])
        | none => (fs2, [Request.switch_session (some next_session)])
      | none => (fs, ([] : List Request))
    else (fs, ([] : List Request))
  | none => (fs, ([] : List Request))

/-- Embeds `try_switch_session` (src/main.rs lines 208-250), returning
the updated state, the updated file store and the outbound requests
issued. -/
def try_switch_session (s : State) (fs : FS) : State × FS × List Request :=
  if s.current_session = "" then (s, fs, [])
  else
    match (s.clients.find? (fun c => c.is_current_client)).map
        (fun v => v.client_pid) with
    | none => (s, fs, [])
    | some plugin_pid =>
      let s1 : State := { s with pid := plugin_pid }
      let fs_reqs : FS × List Request := resolve_switch s1 fs
      ({ s1 with switch_session_event_source_pid := none }, fs_reqs.1, fs_reqs.2)

/-! ## Event handlers (src/main.rs lines 71-139 and 192-204) -/

/-- Embeds the `Event::TabUpdate` arm (src/main.rs lines 81-93): the
stored ordinal is the list position of the first active descriptor plus
one; with no active descriptor the state is unchanged (only a log line is
emitted). -/
def tabUpdate (s : State) (tabs : List TabInfo) : State :=
  match tabs.findIdx? (fun t => t.active) with
  | some active_tab_index =>
    { s with active_tab_idx := active_tab_index + 1, tabs := tabs }
  | none => s

/-- Lexicographic comparison of character sequences by code point.
Rust's `String::cmp` compares UTF-8 bytes lexicographically, which
coincides with lexicographic comparison of the decoded code points. -/
def charsLe : List Char → List Char → Bool
  | [], _ => true
  | _ :: _, [] => false
  | c1 :: r1, c2 :: r2 =>
    if c1.toNat < c2.toNat then true
    else if c2.toNat < c1.toNat then false
    else charsLe r1 r2

/-- Rust's `String` ordering (`name1.cmp(&name2)` being `Less` or
`Equal`), on the strings' characters. -/
def strLe (a b : String) : Bool := charsLe a.data b.data

/-- Name order on session entries, as the Rust comparator
`item1.name.cmp(&item2.name)` (not `Greater`). -/
def sessLe (item1 item2 : SessionInfo) : Prop :=
  strLe item1.name item2.name = true

instance : DecidableRel sessLe := fun item1 item2 => by
  unfold sessLe
  infer_instance

/-- The `all_sessions.sort_by(...name.cmp...)` call of the
`Event::SessionUpdate` arm.  Rust's `sort_by` is a stable sort; every
stable sort computes the same list, so the stable `List.insertionSort`
is extensionally the sort the source performs. -/
def sortedSessions (sessions : List SessionInfo) : List SessionInfo :=
  List.insertionSort sessLe sessions

/-- The `position(...is_current_session)` call of the handler, on the
sorted list (`List.findIdx` returns the length when nothing matches). -/
def currentIdx (sessions : List SessionInfo) : Nat :=
  (sortedSessions sessions).findIdx (fun item => item.is_current_session)

/-- Embeds the `Event::SessionUpdate` arm (src/main.rs lines 109-126).
`none` models the `unwrap` panic when no session is flagged current. -/
def sessionUpdate (s : State) (sessions : List SessionInfo) : Option State :=
  let all_sessions := sortedSessions sessions
  let idx := currentIdx sessions
  if h : idx < all_sessions.length then
    let s1 : State :=
      { s with current_session := (all_sessions.get ⟨idx, h⟩).name }
    if h2 : 1 < all_sessions.length then
      let next_name :=
        (all_sessions.get ⟨(idx + 1) % all_sessions.length,
          Nat.mod_lt _ (by omega)⟩).name
      some { s1 with next_session := some next_name }
    else some s1
  else none

/-- Inbound notifications exercised by the claims, embedding the `Event`
arms handled in `update` plus the `"switch_session"` pipe message.
`PipeSwitchSession (some pid)` is a pipe message from a `Keybind` source
carrying `source_pid`; `PipeSwitchSession none` any other source. -/
inductive HostEvent where
  | TabUpdate (tabs : List TabInfo)
  | MouseLeftClick (col : Nat)
  | MouseScrollUp
  | MouseScrollDown
  | SessionUpdate (sessions : List SessionInfo)
  | PaneUpdate (panes : PaneManifest)
  | ListClients (clients : List ClientInfo)
  | PipeSwitchSession (source_pid : Option Nat)
  deriving Repr

/-- One step of the plugin: dispatches an event to its handler
(src/main.rs `update`, lines 71-139, and `pipe`, lines 192-204),
returning the updated state and store and the outbound requests, or
`none` on the `SessionUpdate` panic. -/
def step (sf : State × FS) (e : HostEvent) :
    Option ((State × FS) × List Request) :=
  match e with
  | .TabUpdate tabs => some ((tabUpdate sf.1 tabs, sf.2), [])
  | .MouseLeftClick col =>
    match get_tab_to_focus sf.1.tab_line sf.1.active_tab_idx col with
    | some idx => some (sf, [Request.switch_tab_to idx])
    | none => some (sf, [])
  | .MouseScrollUp =>
    some (sf, [Request.switch_tab_to
      (min (sf.1.active_tab_idx + 1) sf.1.tabs.length)])
  | .MouseScrollDown =>
    some (sf, [Request.switch_tab_to (max (sf.1.active_tab_idx - 1) 1)])
  | .SessionUpdate sessions =>
    (sessionUpdate sf.1 sessions).map (fun s1 => ((s1, sf.2), []))
  | .PaneUpdate panes => some (({ sf.1 with panes := panes }, sf.2), [])
  | .ListClients clients =>
    let s1 : State := { sf.1 with clients := clients }
    let (s2, fs2, reqs) := try_switch_session s1 sf.2
    some ((s2, fs2), reqs)
  | .PipeSwitchSession source_pid =>
    some (({ sf.1 with switch_session_event_source_pid := source_pid }, sf.2),
      [Request.list_clients])

/-- Runs a sequence of events from a starting state, collecting all
outbound requests; `none` as soon as one step panics. -/
def run (sf : State × FS) : List HostEvent → Option ((State × FS) × List Request)
  | [] => some (sf, [])
  | e :: rest =>
    match step sf e with
    | none => none
    | some (sf1, reqs) =>
      match run sf1 rest with
      | none => none
      | some (sf2, reqs2) => some (sf2, reqs ++ reqs2)

/-! ## Tab styling (src/tab.rs lines 7-79)

Terminal styling (ANSI escapes chosen from the palette) is abstracted
away: `part` keeps the glyphs only.  The Unicode display-width function
and the host's `client_id_to_colors` palette lookup are external, so both
are parameters; a color is an opaque pair (foreground, background). -/

/-- Embeds `cursors` (src/tab.rs lines 7-18): one cursor glyph and one
column per focused client whose id resolves to a color.  The imperative
loop pushes glyphs in client order; this recursion builds the same list
and the same length. -/
def cursors (client_id_to_colors : Nat → Option (Nat × Nat)) :
    List Nat → List (Nat × Nat) × Nat
  | [] => (([] : List (Nat × Nat)), 0)
  | client_id :: rest =>
    let r := cursors client_id_to_colors rest
    match client_id_to_colors client_id with
    | some color => (color :: r.1, r.2 + 1)
    | none => r

/-- Embeds `render_tab` (src/tab.rs lines 20-71).  `uwidth` is the
Unicode display-width function `UnicodeWidthStr::width`; `text.width() + 2`
is the width of the space-padded text `" {text} "`. -/
def render_tab (uwidth : String → Nat)
    (client_id_to_colors : Nat → Option (Nat × Nat))
    (text : String) (tab : TabInfo) : LinePart :=
  let focused_clients := tab.other_focused_clients
  let tab_text_len := uwidth text + 2
  let tab_styled_text := " " ++ text ++ " "
  if focused_clients.isEmpty then
    { part := tab_styled_text, len := tab_text_len,
      tab_index := some tab.position }
  else
    let cursor_and_len := cursors client_id_to_colors focused_clients
    let cursor_section :=
      String.join (cursor_and_len.1.map (fun _ => " "))
    { part := tab_styled_text ++ "[" ++ cursor_section ++ "]",
      len := tab_text_len + cursor_and_len.2,
      tab_index := some tab.position }

/-- Embeds `tab_style` (src/tab.rs lines 73-79). -/
def tab_style (uwidth : String → Nat)
    (client_id_to_colors : Nat → Option (Nat × Nat))
    (tabname : String) (tab : TabInfo) : LinePart :=
  let tabname1 :=
    if tab.is_sync_panes_active then tabname ++ " (Sync)" else tabname
  render_tab uwidth client_id_to_colors tabname1 tab

/-! ## Association-list map lemmas -/

theorem lookupA_insertA_self {α β : Type} [DecidableEq α]
    (l : List (α × β)) (k : α) (v : β) : lookupA (insertA l k v) k = some v := by
  induction l with
  | nil => simp [insertA, lookupA]
  | cons kv rest ih =>
    by_cases h : k = kv.1
    · simp [insertA, lookupA, h]
    · simp only [insertA]
      rw [if_neg (by exact h)]
      simp only [lookupA]
      rw [if_neg (by exact h)]
      exact ih

theorem lookupA_insertA_ne {α β : Type} [DecidableEq α]
    (l : List (α × β)) (k k' : α) (v : β) (hne : k' ≠ k) :
    lookupA (insertA l k v) k' = lookupA l k' := by
  induction l with
  | nil => simp [insertA, lookupA, hne]
  | cons kv rest ih =>
    by_cases h : k = kv.1
    · simp only [insertA]
      rw [if_pos h]
      simp only [lookupA]
      rw [if_neg hne, if_neg (h ▸ hne)]
    · simp only [insertA]
      rw [if_neg h]
      by_cases h2 : k' = kv.1
      · simp [lookupA, h2]
      · simp only [lookupA]
        rw [if_neg h2, if_neg h2]
        exact ih

/-! ## Claim C2: clearing of the stored triggering id -/

/-- Claim C2 counterexample: when the current session name is empty,
`try_switch_session` returns early and the stored triggering id is NOT
cleared, contrary to the claim that it is cleared unconditionally. -/
theorem claim_C2_counterexample :
    (try_switch_session
        { State.default with switch_session_event_source_pid := some 5 }
        ([] : FS)).1.switch_session_event_source_pid = some 5 := by
  rfl

/-- Claim C2 amended: after `try_switch_session`, the stored triggering
id is `none` whenever the current session name is non-empty and the
client list contains a current client; when the session name is empty or
no current client is found the early return leaves it unchanged. -/
theorem claim_C2_amended (s : State) (fs : FS) :
    (s.current_session ≠ "" →
      (∃ c, s.clients.find? (fun c => c.is_current_client) = some c) →
      (try_switch_session s fs).1.switch_session_event_source_pid = none)
    ∧ ((s.current_session = "" ∨
        s.clients.find? (fun c => c.is_current_client) = none) →
      (try_switch_session s fs).1.switch_session_event_source_pid
        = s.switch_session_event_source_pid) := by
  unfold try_switch_session
  by_cases h0 : s.current_session = ""
  · rw [if_pos h0]
    exact ⟨fun hne _ => absurd h0 hne, fun _ => rfl⟩
  · rw [if_neg h0]
    cases hf : s.clients.find? (fun c => c.is_current_client) with
    | none =>
      constructor
      · rintro _ ⟨c, hc⟩
        cases hc
      · intro _
        rfl
    | some c =>
      constructor
      · intro _ _
        rfl
      · rintro (h | h)
        · exact absurd h h0
        · cases h

/-- Concrete state for the C2 witness: non-empty session name, a current
client with pid 3, a stored triggering id. -/
def c2State : State := { State.default with current_session := "w", clients := [{ client_pid := 3, is_current_client := true }], switch_session_event_source_pid := some 5 }

/-- Claim C2 amended, witnessed at a concrete state for each hypothesis:
a non-empty session with a current client clears the id, and an empty
session keeps it. -/
theorem claim_C2_witness :
    (try_switch_session c2State
        ([] : FS)).1.switch_session_event_source_pid = none
    ∧ (try_switch_session
        { State.default with switch_session_event_source_pid := some 5 }
        ([] : FS)).1.switch_session_event_source_pid = some 5 := by
  constructor
  · exact (claim_C2_amended c2State ([] : FS)).1 (by decide)
      ⟨{ client_pid := 3, is_current_client := true }, by rfl⟩
  · exact (claim_C2_amended
      { State.default with switch_session_event_source_pid := some 5 }
      ([] : FS)).2 (Or.inl rfl)

/-! ## Claim C4: the stored active-tab ordinal -/

/-- Claim C4 counterexample: a tab list whose single descriptor is flagged
active but carries `position = 5`; the handler stores ordinal 1 (its list
index plus one), not `position + 1 = 6`. -/
theorem claim_C4_counterexample :
    (tabUpdate State.default
        [{ position := 5, name := "x", active := true,
           is_sync_panes_active := false,
           other_focused_clients := [] }]).active_tab_idx = 1
    ∧ (1 : Nat) ≠ 5 + 1 := by
  exact ⟨rfl, by omega⟩

/-- Claim C4 amended: the stored active-tab ordinal is the list index of
the first descriptor flagged active, converted to 1-based; it equals
`position + 1` exactly when that descriptor's `position` field agrees
with its list index (which the host guarantees). -/
theorem claim_C4_amended (s : State) (tabs : List TabInfo) (i : Nat)
    (hi : tabs.findIdx? (fun t => t.active) = some i) :
    (tabUpdate s tabs).active_tab_idx = i + 1
    ∧ (∀ t, tabs[i]? = some t → t.position = i →
        (tabUpdate s tabs).active_tab_idx = t.position + 1) := by
  unfold tabUpdate
  rw [hi]
  exact ⟨rfl, fun t _ ht => by rw [ht]⟩

/-- Claim C4 amended, witnessed at a concrete tab list. -/
theorem claim_C4_witness :
    (tabUpdate State.default
        [{ position := 0, name := "a", active := true,
           is_sync_panes_active := false,
           other_focused_clients := [] }]).active_tab_idx = 0 + 1 :=
  (claim_C4_amended State.default
    [{ position := 0, name := "a", active := true,
       is_sync_panes_active := false, other_focused_clients := [] }]
    0 (by rfl)).1

/-! ## Claim C5: segment width arithmetic -/

theorem cursors_len (client_id_to_colors : Nat → Option (Nat × Nat))
    (focused_clients : List Nat) :
    (cursors client_id_to_colors focused_clients).2
      = (focused_clients.filter
          (fun c => (client_id_to_colors c).isSome)).length := by
  induction focused_clients with
  | nil => rfl
  | cons c rest ih =>
    simp only [cursors]
    cases hc : client_id_to_colors c with
    | none => simp [List.filter_cons, hc, ih]
    | some color => simp [List.filter_cons, hc, ih]

/-- Claim C5 counterexample: a tab with one other focused client whose id
resolves to a color.  The padded text `" 1 a "` has display width 5 (the
width function is `String.length`, correct for this ASCII text), so the
claim predicts `5 + 1 + 2 = 8` columns counting the bracket pair, but the
produced segment has width 6: the brackets are rendered into the text yet
never counted. -/
theorem claim_C5_counterexample :
    (render_tab String.length (fun _ => some (0, 0)) "1 a"
        { position := 0, name := "a", active := false,
          is_sync_panes_active := false,
          other_focused_clients := [1] }).len = 6
    ∧ (render_tab String.length (fun _ => some (0, 0)) "1 a"
        { position := 0, name := "a", active := false,
          is_sync_panes_active := false,
          other_focused_clients := [1] }).part = " 1 a [ ]"
    ∧ String.length " 1 a " + 1 + 2 = 8
    ∧ (6 : Nat) ≠ 8 := by
  refine ⟨rfl, rfl, rfl, by omega⟩

/-- Claim C5 amended: the produced segment's width is the display width
of the space-padded text plus one column per other focused client whose
id resolves to a color; the bracket pair `[` `]` is appended to the text
when that set is non-empty but contributes nothing to the recorded
width. -/
theorem claim_C5_amended (uwidth : String → Nat)
    (client_id_to_colors : Nat → Option (Nat × Nat)) (text : String)
    (tab : TabInfo) :
    (render_tab uwidth client_id_to_colors text tab).len
      = uwidth text + 2
        + (tab.other_focused_clients.filter
            (fun c => (client_id_to_colors c).isSome)).length := by
  unfold render_tab
  cases he : tab.other_focused_clients.isEmpty with
  | true =>
    have : tab.other_focused_clients = [] := by
      cases h : tab.other_focused_clients with
      | nil => rfl
      | cons a l => rw [h] at he; cases he
    simp [this]
  | false =>
    simp only [he, Bool.false_eq_true, if_false]
    rw [cursors_len]

/-! ## Claim C7: cache round trip -/

theorem get_session_layout_info_insertA (fs : FS) (session_name : String)
    (m : SessionMap) :
    get_session_layout_info (insertA fs session_name (some m)) session_name
      = m := by
  unfold get_session_layout_info
  rw [lookupA_insertA_self]

/-- Claim C7: after `dump_layout_to_cache`, loading the same session's
mapping with no intervening writer yields, at the calling pid, exactly
the dumped layout: the active tab's position and the focused pane's id
and plugin flag. -/
theorem claim_C7 (s : State) (fs : FS) (tab : TabInfo) (pane : PaneInfo)
    (htab : get_focused_tab s.tabs = some tab)
    (hpane : get_focused_pane tab.position s.panes = some pane) :
    lookupA (get_session_layout_info (dump_layout_to_cache s fs)
        s.current_session) s.pid
      = some { tab_idx := tab.position,
               pane := (pane.id, pane.is_plugin) } := by
  simp only [dump_layout_to_cache, htab, hpane]
  rw [get_session_layout_info_insertA, lookupA_insertA_self]

/-- Concrete state for the C7 and C9 witnesses: session "w", pid 9, one
active tab at position 2 holding one focused plugin pane with id 11. -/
def wTab : TabInfo := { position := 2, name := "t", active := true, is_sync_panes_active := false, other_focused_clients := [] }

/-- Focused pane of the C7 and C9 witness state. -/
def wPane : PaneInfo := { id := 11, is_plugin := true, is_focused := true }

/-- Witness state for C7 and C9. -/
def wState : State := { State.default with current_session := "w", pid := 9, tabs := [wTab], panes := [(2, [wPane])] }

/-- Claim C7, witnessed at a concrete state with an active tab and a
focused pane, over the empty store. -/
theorem claim_C7_witness :
    lookupA (get_session_layout_info
        (dump_layout_to_cache wState ([] : FS)) "w") 9
      = some { tab_idx := 2, pane := (11, true) } :=
  claim_C7 wState ([] : FS) wTab wPane (by rfl) (by rfl)

/-! ## Claim C8: load never errors -/

/-- Claim C8: `get_session_layout_info` returns the empty mapping both
when the per-session file cannot be opened and when its content fails to
parse; it is total, so no error ever reaches the caller. -/
theorem claim_C8 (fs : FS) (session_name : String) :
    (lookupA fs session_name = none →
      get_session_layout_info fs session_name = ([] : SessionMap))
    ∧ (lookupA fs session_name = some none →
      get_session_layout_info fs session_name = ([] : SessionMap)) := by
  unfold get_session_layout_info
  constructor
  · intro h
    rw [h]
  · intro h
    rw [h]

/-- Claim C8, witnessed on a missing file and on a malformed file. -/
theorem claim_C8_witness :
    get_session_layout_info ([] : FS) "s" = ([] : SessionMap)
    ∧ get_session_layout_info [("s", (none : FileContent))] "s"
        = ([] : SessionMap) :=
  ⟨(claim_C8 ([] : FS) "s").1 rfl,
   (claim_C8 [("s", (none : FileContent))] "s").2 rfl⟩

/-! ## Claim C9: dump's frame conditions -/

/-- Claim C9: `dump_layout_to_cache` writes nothing when no tab is
flagged active or the active tab has no focused pane; otherwise it
touches only the current session's file, and within it only the calling
pid's entry — every other pid's entry and every other session's file are
carried over unchanged. -/
theorem claim_C9 (s : State) (fs : FS) :
    (get_focused_tab s.tabs = none → dump_layout_to_cache s fs = fs)
    ∧ (∀ tab, get_focused_tab s.tabs = some tab →
        get_focused_pane tab.position s.panes = none →
        dump_layout_to_cache s fs = fs)
    ∧ (∀ tab pane, get_focused_tab s.tabs = some tab →
        get_focused_pane tab.position s.panes = some pane →
        (∀ q, q ≠ s.pid →
          lookupA (get_session_layout_info (dump_layout_to_cache s fs)
            s.current_session) q
          = lookupA (get_session_layout_info fs s.current_session) q)
        ∧ (∀ name, name ≠ s.current_session →
          lookupA (dump_layout_to_cache s fs) name = lookupA fs name)) := by
  refine ⟨?_, ?_, ?_⟩
  · intro h
    simp only [dump_layout_to_cache, h]
  · intro tab htab hpane
    simp only [dump_layout_to_cache, htab, hpane]
  · intro tab pane htab hpane
    constructor
    · intro q hq
      simp only [dump_layout_to_cache, htab, hpane]
      rw [get_session_layout_info_insertA]
      rw [lookupA_insertA_ne _ _ _ _ hq]
    · intro name hname
      simp only [dump_layout_to_cache, htab, hpane]
      rw [lookupA_insertA_ne _ _ _ _ hname]

/-- Pre-existing store for the C9 witness: session "w" already holds an
entry for pid 4. -/
def wStore : FS := [("w", some [(4, { tab_idx := 1, pane := (2, false) })])]

/-- Claim C9, witnessed on the no-active-tab no-op and on the
carried-over entry of another pid. -/
theorem claim_C9_witness :
    dump_layout_to_cache State.default ([] : FS) = ([] : FS)
    ∧ lookupA (get_session_layout_info
        (dump_layout_to_cache wState wStore) "w") 4
      = lookupA (get_session_layout_info wStore "w") 4 := by
  constructor
  · exact (claim_C9 State.default ([] : FS)).1 rfl
  · exact ((claim_C9 wState wStore).2.2 wTab wPane (by rfl) (by rfl)).1 4
      (by decide)

/-! ## Claim C10: scroll clamping -/

/-- Claim C10: with a non-empty tab list and the active ordinal within
`[1, number of tabs]`, scroll-up requests `min(active+1, tabs)` and
scroll-down requests `max(active-1, 1)`, both of which stay within
`[1, number of tabs]` — clamped at the ends, not cyclic. -/
theorem claim_C10 (s : State) (fs : FS)
    (h1 : 1 ≤ s.active_tab_idx) (h2 : s.active_tab_idx ≤ s.tabs.length) :
    step (s, fs) HostEvent.MouseScrollUp
      = some ((s, fs), [Request.switch_tab_to
          (min (s.active_tab_idx + 1) s.tabs.length)])
    ∧ step (s, fs) HostEvent.MouseScrollDown
      = some ((s, fs), [Request.switch_tab_to
          (max (s.active_tab_idx - 1) 1)])
    ∧ 1 ≤ min (s.active_tab_idx + 1) s.tabs.length
    ∧ min (s.active_tab_idx + 1) s.tabs.length ≤ s.tabs.length
    ∧ 1 ≤ max (s.active_tab_idx - 1) 1
    ∧ max (s.active_tab_idx - 1) 1 ≤ s.tabs.length := by
  refine ⟨rfl, rfl, ?_, ?_, ?_, ?_⟩ <;> omega

/-- Three-tab state with the last tab active, for the C10 witness. -/
def scrollState : State := { State.default with active_tab_idx := 3, tabs := [{ position := 0, name := "a", active := false, is_sync_panes_active := false, other_focused_clients := [] }, { position := 1, name := "b", active := false, is_sync_panes_active := false, other_focused_clients := [] }, { position := 2, name := "c", active := true, is_sync_panes_active := false, other_focused_clients := [] }] }

/-- Claim C10, witnessed at a concrete three-tab state with the last tab
active: scroll-up stays clamped at tab 3. -/
theorem claim_C10_witness :
    step (scrollState, ([] : FS)) HostEvent.MouseScrollUp
      = some ((scrollState, ([] : FS)),
        [Request.switch_tab_to
          (min (scrollState.active_tab_idx + 1) scrollState.tabs.length)]) :=
  (claim_C10 scrollState ([] : FS) (by decide) (by decide)).1

/-! ## Claim C6: next-session selection -/

theorem charsLe_trans : ∀ l1 l2 l3 : List Char, charsLe l1 l2 = true →
    charsLe l2 l3 = true → charsLe l1 l3 = true
  | [], _, _, _, _ => rfl
  | _ :: _, [], _, h12, _ => by cases h12
  | _ :: _, _ :: _, [], _, h23 => by cases h23
  | c1 :: r1, c2 :: r2, c3 :: r3, h12, h23 => by
    simp only [charsLe] at h12 h23 ⊢
    split_ifs at h12 h23 ⊢ <;>
      first
      | rfl
      | omega
      | exact charsLe_trans r1 r2 r3 h12 h23

theorem charsLe_total : ∀ l1 l2 : List Char,
    (charsLe l1 l2 || charsLe l2 l1) = true
  | [], _ => rfl
  | _ :: _, [] => rfl
  | c1 :: r1, c2 :: r2 => by
    simp only [charsLe]
    split_ifs <;>
      first
      | rfl
      | omega
      | simpa using charsLe_total r1 r2

instance : IsTrans SessionInfo sessLe :=
  ⟨fun _ _ _ hab hbc => charsLe_trans _ _ _ hab hbc⟩

instance : IsTotal SessionInfo sessLe :=
  ⟨fun a b => Bool.or_eq_true _ _ ▸ charsLe_total a.name.data b.name.data⟩

/-- Claim C6: the handler sorts the sessions by name (a name-sorted
permutation of the notification); it fails fatally exactly when no
session is flagged current; and with more than one session the stored
candidate is the name of the session immediately following the current
one in sorted order, cyclically. -/
theorem claim_C6 (s : State) (sessions : List SessionInfo) :
    ((sortedSessions sessions).Pairwise
        (fun a b => strLe a.name b.name = true)
      ∧ (sortedSessions sessions).Perm sessions)
    ∧ (sessionUpdate s sessions = none ↔
        ∀ x ∈ sessions, x.is_current_session = false)
    ∧ ((∃ x ∈ sessions, x.is_current_session = true) →
        1 < sessions.length →
        ∃ s1, sessionUpdate s sessions = some s1
          ∧ (∃ cur, (sortedSessions sessions)[currentIdx sessions]?
                = some cur
              ∧ cur.is_current_session = true
              ∧ s1.current_session = cur.name)
          ∧ (∃ nxt, (sortedSessions sessions)[(currentIdx sessions + 1)
                % (sortedSessions sessions).length]? = some nxt
              ∧ s1.next_session = some nxt.name)) := by
  have hlen : (sortedSessions sessions).length = sessions.length := by
    simp [sortedSessions, List.length_insertionSort]
  refine ⟨⟨?_, List.perm_insertionSort sessLe sessions⟩, ?_, ?_⟩
  · exact (List.sorted_insertionSort sessLe sessions).imp (fun hab => hab)
  · simp only [sessionUpdate]
    constructor
    · intro hnone
      intro x hx
      by_contra hxc
      have hxc' : x.is_current_session = true := by
        cases h : x.is_current_session
        · exact absurd h hxc
        · rfl
      have hidx : currentIdx sessions < (sortedSessions sessions).length :=
        List.findIdx_lt_length.mpr ⟨x, (List.mem_insertionSort sessLe).mpr hx, hxc'⟩
      rw [dif_pos hidx] at hnone
      by_cases h2 : 1 < (sortedSessions sessions).length
      · rw [dif_pos h2] at hnone
        cases hnone
      · rw [dif_neg h2] at hnone
        cases hnone
    · intro hall
      have hidx : ¬ currentIdx sessions < (sortedSessions sessions).length := by
        have : currentIdx sessions = (sortedSessions sessions).length :=
          List.findIdx_eq_length.mpr
            (fun x hx => hall x ((List.mem_insertionSort sessLe).mp hx))
        omega
      rw [dif_neg hidx]
  · rintro ⟨x, hx, hxc⟩ hmany
    have hidx : currentIdx sessions < (sortedSessions sessions).length :=
      List.findIdx_lt_length.mpr ⟨x, (List.mem_insertionSort sessLe).mpr hx, hxc⟩
    have h2 : 1 < (sortedSessions sessions).length := by omega
    simp only [sessionUpdate]
    rw [dif_pos hidx, dif_pos h2]
    refine ⟨_, rfl, ?_, ?_⟩
    · refine ⟨(sortedSessions sessions).get ⟨currentIdx sessions, hidx⟩,
        List.getElem?_eq_getElem hidx, ?_, rfl⟩
      exact List.findIdx_getElem (w := hidx)
    · exact ⟨(sortedSessions sessions).get
        ⟨(currentIdx sessions + 1) % (sortedSessions sessions).length,
          Nat.mod_lt _ (by omega)⟩,
        List.getElem?_eq_getElem (Nat.mod_lt _ (by omega)), rfl⟩

/-- Claim C6, witnessed on the spec's cyclic example: sessions
`[c (current), b, a]` sort to `[a, b, c]`; the candidate after the last
entry `c` wraps to the first, `a`. -/
theorem claim_C6_witness :
    (∃ x ∈ ([⟨"c", true⟩, ⟨"b", false⟩, ⟨"a", false⟩] : List SessionInfo),
      x.is_current_session = true)
    ∧ 1 < ([⟨"c", true⟩, ⟨"b", false⟩, ⟨"a", false⟩] :
        List SessionInfo).length
    ∧ ∃ s1, sessionUpdate State.default
          [⟨"c", true⟩, ⟨"b", false⟩, ⟨"a", false⟩] = some s1
        ∧ (∃ cur, (sortedSessions
              [⟨"c", true⟩, ⟨"b", false⟩, ⟨"a", false⟩])[currentIdx
              [⟨"c", true⟩, ⟨"b", false⟩, ⟨"a", false⟩]]? = some cur
            ∧ cur.is_current_session = true
            ∧ s1.current_session = cur.name)
        ∧ (∃ nxt, (sortedSessions
              [⟨"c", true⟩, ⟨"b", false⟩, ⟨"a", false⟩])[(currentIdx
              [⟨"c", true⟩, ⟨"b", false⟩, ⟨"a", false⟩] + 1)
              % (sortedSessions
                [⟨"c", true⟩, ⟨"b", false⟩, ⟨"a", false⟩]).length]?
              = some nxt
            ∧ s1.next_session = some nxt.name) :=
  ⟨by decide, by decide,
    (claim_C6 State.default [⟨"c", true⟩, ⟨"b", false⟩, ⟨"a", false⟩]).2.2
      (by decide) (by decide)⟩

/-! ## Claim C3: single session means no switch request -/

/-- Session-switch requests among the outbound requests. -/
def is_session_switch : Request → Bool
  | Request.switch_session _ => true
  | Request.switch_session_with_focus _ _ _ => true
  | _ => false

theorem resolve_switch_next_none (s1 : State) (fs : FS)
    (hn : s1.next_session = none) : resolve_switch s1 fs = (fs, []) := by
  unfold resolve_switch
  split
  · split
    · rw [hn]
    · rfl
  · rfl

theorem try_switch_session_next_none (s : State) (fs : FS)
    (hn : s.next_session = none) :
    (try_switch_session s fs).1.next_session = none
    ∧ (try_switch_session s fs).2.2 = [] := by
  unfold try_switch_session
  by_cases h0 : s.current_session = ""
  · rw [if_pos h0]
    exact ⟨hn, rfl⟩
  · rw [if_neg h0]
    cases hf : s.clients.find? (fun c => c.is_current_client) with
    | none => exact ⟨hn, rfl⟩
    | some c =>
      simp only [Option.map_some']
      rw [resolve_switch_next_none { s with pid := c.client_pid } fs hn]
      exact ⟨hn, rfl⟩

theorem tabUpdate_next (s : State) (tabs : List TabInfo) :
    (tabUpdate s tabs).next_session = s.next_session := by
  unfold tabUpdate
  cases tabs.findIdx? (fun t => t.active) with
  | none => rfl
  | some i => rfl

theorem sessionUpdate_small (s : State) (sessions : List SessionInfo)
    (s1 : State) (hle : sessions.length ≤ 1)
    (h : sessionUpdate s sessions = some s1) :
    s1.next_session = s.next_session := by
  simp only [sessionUpdate] at h
  by_cases hidx : currentIdx sessions < (sortedSessions sessions).length
  · rw [dif_pos hidx] at h
    have hlen : (sortedSessions sessions).length = sessions.length := by
      simp [sortedSessions]
    have h2 : ¬ 1 < (sortedSessions sessions).length := by omega
    rw [dif_neg h2] at h
    injection h with h
    subst h
    rfl
  · rw [dif_neg hidx] at h
    cases h

theorem step_next_none (sf : State × FS) (e : HostEvent)
    (sf1 : State × FS) (reqs : List Request)
    (hstep : step sf e = some (sf1, reqs))
    (hn : sf.1.next_session = none)
    (hse : ∀ ss, e = HostEvent.SessionUpdate ss → ss.length ≤ 1) :
    sf1.1.next_session = none
    ∧ ∀ r ∈ reqs, is_session_switch r = false := by
  cases e with
  | TabUpdate tabs =>
    simp only [step] at hstep
    injection hstep with hstep
    obtain ⟨h1, h2⟩ := Prod.mk.injEq .. ▸ hstep
    constructor
    · rw [← congrArg Prod.fst h1]
      rw [tabUpdate_next]
      exact hn
    · intro r hr
      rw [← h2] at hr
      cases hr
  | MouseLeftClick col =>
    simp only [step] at hstep
    cases hg : get_tab_to_focus sf.1.tab_line sf.1.active_tab_idx col with
    | none =>
      rw [hg] at hstep
      have hstep2 : some (sf, ([] : List Request)) = some (sf1, reqs) := hstep
      injection hstep2 with hstep2
      obtain ⟨h1, h2⟩ := Prod.mk.injEq .. ▸ hstep2
      constructor
      · rw [← h1]; exact hn
      · intro r hr
        rw [← h2] at hr
        cases hr
    | some idx =>
      rw [hg] at hstep
      have hstep2 : some (sf, [Request.switch_tab_to idx])
          = some (sf1, reqs) := hstep
      injection hstep2 with hstep2
      obtain ⟨h1, h2⟩ := Prod.mk.injEq .. ▸ hstep2
      constructor
      · rw [← h1]; exact hn
      · intro r hr
        rw [← h2] at hr
        cases hr with
        | head => rfl
        | tail _ h => cases h
  | MouseScrollUp =>
    simp only [step] at hstep
    injection hstep with hstep
    obtain ⟨h1, h2⟩ := Prod.mk.injEq .. ▸ hstep
    constructor
    · rw [← h1]; exact hn
    · intro r hr
      rw [← h2] at hr
      cases hr with
      | head => rfl
      | tail _ h => cases h
  | MouseScrollDown =>
    simp only [step] at hstep
    injection hstep with hstep
    obtain ⟨h1, h2⟩ := Prod.mk.injEq .. ▸ hstep
    constructor
    · rw [← h1]; exact hn
    · intro r hr
      rw [← h2] at hr
      cases hr with
      | head => rfl
      | tail _ h => cases h
  | SessionUpdate sessions =>
    simp only [step] at hstep
    cases hsu : sessionUpdate sf.1 sessions with
    | none =>
      rw [hsu] at hstep
      cases hstep
    | some s2 =>
      rw [hsu] at hstep
      have hstep2 : some ((s2, sf.2), ([] : List Request))
          = some (sf1, reqs) := hstep
      injection hstep2 with hstep2
      obtain ⟨h1, h2⟩ := Prod.mk.injEq .. ▸ hstep2
      constructor
      · rw [← congrArg Prod.fst h1]
        rw [sessionUpdate_small sf.1 sessions s2 (hse sessions rfl) hsu]
        exact hn
      · intro r hr
        rw [← h2] at hr
        cases hr
  | PaneUpdate panes =>
    simp only [step] at hstep
    injection hstep with hstep
    obtain ⟨h1, h2⟩ := Prod.mk.injEq .. ▸ hstep
    constructor
    · rw [← congrArg Prod.fst h1]; exact hn
    · intro r hr
      rw [← h2] at hr
      cases hr
  | ListClients clients =>
    simp only [step] at hstep
    injection hstep with hstep
    obtain ⟨h1, h2⟩ := Prod.mk.injEq .. ▸ hstep
    obtain ⟨hnext, hreqs⟩ :=
      try_switch_session_next_none { sf.1 with clients := clients } sf.2 hn
    constructor
    · rw [← congrArg Prod.fst h1]
      exact hnext
    · intro r hr
      rw [← h2] at hr
      rw [hreqs] at hr
      cases hr
  | PipeSwitchSession source_pid =>
    simp only [step] at hstep
    injection hstep with hstep
    obtain ⟨h1, h2⟩ := Prod.mk.injEq .. ▸ hstep
    constructor
    · rw [← congrArg Prod.fst h1]; exact hn
    · intro r hr
      rw [← h2] at hr
      cases hr with
      | head => rfl
      | tail _ h => cases h

/-- Claim C3 counterexample: a session-list notification with two
sessions followed by one with exactly one session; the stale candidate
"b" is not cleared, so the next trigger and client list still issue a
switch request. -/
theorem claim_C3_counterexample :
    (run (State.default, ([] : FS))
        [HostEvent.SessionUpdate [⟨"a", true⟩, ⟨"b", false⟩],
         HostEvent.SessionUpdate [⟨"a", true⟩],
         HostEvent.PipeSwitchSession (some 7),
         HostEvent.ListClients [⟨7, true⟩]]).map (fun r => r.2)
      = some [Request.list_clients, Request.switch_session (some "b")] := by
  decide

/-- Claim C3 amended: a single-session notification does not clear a
previously stored candidate, so the claim holds only for histories in
which every session-list notification reported at most one session (from
a state with no candidate): then a trigger resolves to a no-op and no
session-switch request is ever issued. -/
theorem claim_C3_amended (events : List HostEvent) (sf : State × FS)
    (out : (State × FS) × List Request)
    (hn : sf.1.next_session = none)
    (hse : ∀ ss, HostEvent.SessionUpdate ss ∈ events → ss.length ≤ 1)
    (hrun : run sf events = some out) :
    ∀ r ∈ out.2, is_session_switch r = false := by
  induction events generalizing sf out with
  | nil =>
    simp only [run] at hrun
    injection hrun with hrun
    subst hrun
    intro r hr
    cases hr
  | cons e rest ih =>
    simp only [run] at hrun
    cases hstep : step sf e with
    | none =>
      simp only [hstep] at hrun
      cases hrun
    | some sr =>
      obtain ⟨sf1, reqs⟩ := sr
      simp only [hstep] at hrun
      cases hrest : run sf1 rest with
      | none =>
        simp only [hrest] at hrun
        cases hrun
      | some out2 =>
        obtain ⟨o1, o2⟩ := out2
        simp only [hrest] at hrun
        have hrun2 : some ((o1, reqs ++ o2) : (State × FS) × List Request)
            = some out := hrun
        injection hrun2 with hrun2
        subst hrun2
        obtain ⟨hn1, hreqs⟩ := step_next_none sf e sf1 reqs hstep hn
          (fun ss hss => hse ss (by rw [hss]; exact List.mem_cons_self _ _))
        intro r hr
        rcases List.mem_append.mp hr with h | h
        · exact hreqs r h
        · exact ih sf1 (o1, o2) hn1
            (fun ss hss => hse ss (List.mem_cons_of_mem _ hss)) hrest r h

/-- Final state of the C3 witness trace. -/
def c3OutState : State := { State.default with current_session := "a", clients := [{ client_pid := 7, is_current_client := true }], pid := 7 }

/-- Claim C3 amended, witnessed on a single-session history: the trigger
and client list issue only the client-list request, no switch. -/
theorem claim_C3_witness :
    is_session_switch Request.list_clients = false :=
  claim_C3_amended
    [HostEvent.SessionUpdate [⟨"a", true⟩],
     HostEvent.PipeSwitchSession (some 7),
     HostEvent.ListClients [⟨7, true⟩]]
    (State.default, ([] : FS))
    ((c3OutState, ([] : FS)), [Request.list_clients])
    (by rfl)
    (by
      intro ss hss
      simp only [List.mem_cons, List.not_mem_nil, or_false] at hss
      rcases hss with h | h | h
      · injection h with h
        subst h
        decide
      · cases h
      · cases h)
    (by decide)
    Request.list_clients
    (List.mem_cons_self _ _)

end CompactBar
